import Mathlib

/-!
Verification of the market-cli price-aggregation pipeline (src/src/index.js).

Shallow embedding conventions:
* JS numbers are modeled as exact rationals (`ℚ`); the JS non-values `NaN` and
  `undefined`, which the code can store in a quote field, are modeled as `none`
  in `Option ℚ`.
* Network transports are explicit parameters: a transport maps a request URL to
  `Except Unit body` (`Except.error` models any axios/network exception).
  Each fetch returns, besides its outcome, the list of URLs it requested.
* `Math.random()` is modeled as an explicit stream `Nat → ℚ` with a cursor that
  is advanced exactly where the source calls `Math.random()`.
* JS strings are compared and split through their character lists.
-/

namespace MarketCli

/-- A quote record as built by the adapters: `{price, change}`.  Either field
can be the JS non-value `NaN`/`undefined` (modeled `none`) because the source
stores `parseFloat` results / JSON field reads unchecked. -/
structure Quote where
  price : Option ℚ
  change : Option ℚ
deriving DecidableEq

/-- One watchlist entry `{symbol, name}` (src/src/index.js lines 36-63). -/
structure SymbolEntry where
  symbol : String
  name : String
deriving DecidableEq

/-- One watchlist group `{name, symbols}`. -/
structure WatchGroup where
  name : String
  symbols : List SymbolEntry
deriving DecidableEq

/-- The watchlist object: a JS object modeled as an insertion-ordered
association list from group key to group. -/
abbrev Watchlist : Type := List (String × WatchGroup)

/-- A fetch outcome: `some q` for a truthy quote object, `none` for the JS
`null` that every adapter returns on failure. -/
abbrev FetchOutcome : Type := Option Quote

/-- The aggregator's `results` object: a JS object keyed by display name,
modeled as an insertion-ordered association list.  We record the fetch
outcome that determines the rendered string. -/
abbrev Report : Type := List (String × Option Quote)

/-- JS object property lookup (first matching key; JS objects have unique
keys, so first-match is exact). -/
def jsLookup {α : Type} : List (String × α) → String → Option α
  | [], _ => none
  | (k', v) :: rest, k => if k' = k then some v else jsLookup rest k

/-- Whether a JS object already has a property named `k`. -/
def objHasKey {α : Type} : List (String × α) → String → Bool
  | [], _ => false
  | (k', _) :: rest, k => (k' = k) || objHasKey rest k

/-- JS object property assignment `o[k] = v`: updates in place when the key
exists (keeping its position), otherwise appends. -/
def objInsert {α : Type} (o : List (String × α)) (k : String) (v : α) :
    List (String × α) :=
  if objHasKey o k then o.map (fun p => if p.1 = k then (k, v) else p)
  else o ++ [(k, v)]

/-! ### String scanning primitives used by the regional-exchange adapter -/

/-- Is `pat` a prefix of the second list? -/
def isPrefixL : List Char → List Char → Bool
  | [], _ => true
  | _ :: _, [] => false
  | a :: as, b :: bs => (a = b) && isPrefixL as bs

/-- JS `String.prototype.includes`: does `pat` occur contiguously? -/
def hasSubstr (pat : List Char) : List Char → Bool
  | [] => isPrefixL pat []
  | c :: rest => isPrefixL pat (c :: rest) || hasSubstr pat rest

/-- The characters of the null-feed sentinel `'null'`. -/
def nullPat : List Char := ['n', 'u', 'l', 'l']

/-- Characters strictly before the next `'"'`; `none` when no quote follows. -/
def upToQuote : List Char → Option (List Char)
  | [] => none
  | c :: rest => if c = '"' then some [] else (upToQuote rest).map (c :: ·)

/-- Capture of `/"([^"]+)"/` given the text after an opening quote: an
immediately following quote makes the engine retry with that quote as the
new opener; otherwise the (nonempty) run up to the next quote is captured,
provided a closing quote exists. -/
def afterQuote : List Char → Option (List Char)
  | [] => none
  | c :: rest => if c = '"' then afterQuote rest else (upToQuote rest).map (c :: ·)

/-- First capture of `data.match(/"([^"]+)"/)` over the whole text. -/
def firstQuoted : List Char → Option (List Char)
  | [] => none
  | c :: rest => if c = '"' then afterQuote rest else firstQuoted rest

/-- JS `String.prototype.split(',')` on a character list: the comma-separated
segments, empty segments preserved, at least one segment always. -/
def splitComma : List Char → List (List Char)
  | [] => [[]]
  | c :: rest =>
    if c = ',' then [] :: splitComma rest
    else
      match splitComma rest with
      | s :: ss => (c :: s) :: ss
      | [] => [[c]]

/-- Digit-list value, e.g. `['1','8','3']` ↦ 183. -/
def digitsToNat (l : List Char) : Nat :=
  l.foldl (fun a c => a * 10 + (c.toNat - 48)) 0

/-- Unsigned part of JS `parseFloat`: longest prefix `digits ['.' digits]`,
`none` (NaN) when it contains no digit at all.  The exact decimal value
`ip.fp` is built with `mkRat` (numerator `ip·10^|fp| + fp` over `10^|fp|`). -/
def jsParseUnsigned (l : List Char) : Option ℚ :=
  let ip := l.takeWhile Char.isDigit
  let r1 := l.dropWhile Char.isDigit
  let fp := match r1 with
    | '.' :: t => t.takeWhile Char.isDigit
    | _ => []
  if ip.isEmpty && fp.isEmpty then none
  else some (mkRat (digitsToNat ip * 10 ^ fp.length + digitsToNat fp) (10 ^ fp.length))

/-- Model of JS `parseFloat` on a string's characters, restricted to the plain
decimal forms the quote feed uses (optional leading whitespace and sign, no
exponent): `none` models the NaN result. -/
def jsParseFloatL (l : List Char) : Option ℚ :=
  let l1 := l.dropWhile (fun c => (c = ' ') || (c = '\t') || (c = '\n') || (c = '\r'))
  match l1 with
  | '-' :: t => (jsParseUnsigned t).map (fun q => -q)
  | '+' :: t => jsParseUnsigned t
  | t => jsParseUnsigned t

/-- Model of `parseFloat(parts[i])`: an out-of-range index is JS `undefined`, and
`parseFloat(undefined)` is NaN (`none`). -/
def optParseFloat : Option (List Char) → Option ℚ
  | some l => jsParseFloatL l
  | none => none

/-! ### Regional-exchange adapter `fetchChinaStock` (lines 75-100) -/

/-- Transport for the quote endpoint: URL to response body or network error. -/
abbrev ChinaTransport : Type := String → Except Unit String

/-- The request URL `https://hq.sinajs.cn/list=${symbol}`. -/
def chinaUrl (symbol : String) : String := "https://hq.sinajs.cn/list=" ++ symbol

/-- The pre-parse guard (line 83): body contains `'null'` or is shorter than
32 characters. -/
def chinaGuard (body : String) : Bool :=
  hasSubstr nullPat body.toList || decide (body.length < 32)

/-- Parse step (lines 88-95): first quoted field list, split on commas,
`price` from index 1 and `change` from index 2 via `parseFloat`; `null`
when the pattern does not match. -/
def chinaParse (body : String) : Option Quote :=
  match firstQuoted body.toList with
  | some mid =>
    let parts := splitComma mid
    some { price := optParseFloat parts[1]?, change := optParseFloat parts[2]? }
  | none => none

/-- The guarded response pipeline, abstracted over the parse step so that
"the parser is never invoked" is expressible as independence from `parse`. -/
def chinaPipe (parse : String → Option Quote) (body : String) : Option Quote :=
  if chinaGuard body then none else parse body

/-- Outcome of `fetchChinaStock` on a response body. -/
def chinaRespOutcome (body : String) : Option Quote := chinaPipe chinaParse body

/-- The fetch `fetchChinaStock` (lines 75-100): one GET to the quote endpoint; any
transport exception is swallowed into `null`.  Also returns the requested
URLs. -/
def fetchChinaStock (t : ChinaTransport) (symbol : String) :
    Option Quote × List String :=
  match t (chinaUrl symbol) with
  | Except.ok body => (chinaRespOutcome body, [chinaUrl symbol])
  | Except.error _ => (none, [chinaUrl symbol])

/-! ### Cryptocurrency adapter `fetchCrypto` (lines 103-125) -/

/-- One value of the simple-price JSON object: `{cny, cny_24h_change}`.
Either field may be missing from the upstream payload (`none` models JS
`undefined`). -/
structure CoinData where
  cny : Option ℚ
  cny_24h_change : Option ℚ
deriving DecidableEq

/-- Transport for the simple-price endpoint: URL to the decoded JSON object
(an association list keyed by coin id) or a network error. -/
abbrev CryptoTransport : Type := String → Except Unit (List (String × CoinData))

/-- The `idMap` allow-list (lines 105-109). -/
def cryptoIdMap (symbol : String) : Option String :=
  if symbol = "bitcoin" then some "bitcoin"
  else if symbol = "ethereum" then some "ethereum"
  else if symbol = "solana" then some "solana"
  else none

/-- The key actually used both in the URL template and in the property read
`response.data[idMap[symbol]]`: JS stringifies the `undefined` of a failed
map lookup to the literal `"undefined"`. -/
def cryptoKey (symbol : String) : String := (cryptoIdMap symbol).getD "undefined"

/-- The request URL (line 111), built by template interpolation of
`idMap[symbol]`. -/
def cryptoUrl (symbol : String) : String :=
  "https://api.coingecko.com/api/v3/simple/price?ids=" ++ cryptoKey symbol ++
    "&vs_currencies=cny&include_24hr_change=true"

/-- The fetch `fetchCrypto` (lines 103-125): one GET, then a lookup of the symbol's
mapped id in the response object; the `cny` and `cny_24h_change` fields are
copied without validation.  Any transport exception is swallowed into
`null`.  Also returns the requested URLs. -/
def fetchCrypto (t : CryptoTransport) (symbol : String) :
    Option Quote × List String :=
  match t (cryptoUrl symbol) with
  | Except.ok resp =>
    match jsLookup resp (cryptoKey symbol) with
    | some d => (some { price := d.cny, change := d.cny_24h_change }, [cryptoUrl symbol])
    | none => (none, [cryptoUrl symbol])
  | Except.error _ => (none, [cryptoUrl symbol])

/-! ### Precious-metals adapter `fetchGold` (lines 128-149) -/

/-- The `mockData` table (lines 131-134): baseline price and change. -/
def goldMock (symbol : String) : Option (ℚ × ℚ) :=
  if symbol = "XAUUSD" then some (2650, 1 / 2)
  else if symbol = "AU9999" then some (620, 3 / 10)
  else none

/-- The fetch `fetchGold` for a single `Math.random()` draw `r` (lines 136-145):
`variance = (r - 0.5) * 2`, price `base + variance`, change
`change + variance * 0.1`.  No network call is made. -/
def fetchGold (r : ℚ) (symbol : String) : Option Quote :=
  match goldMock symbol with
  | some d =>
    let variance := (r - 1 / 2) * 2
    some { price := some (d.1 + variance), change := some (d.2 + variance * (1 / 10)) }
  | none => none

/-- The fetch `fetchGold` threaded through the random stream: `Math.random()` is
consumed (cursor advanced) exactly when the symbol is in `mockData`. -/
def fetchGoldS (rand : Nat → ℚ) (k : Nat) (symbol : String) :
    Option Quote × Nat :=
  match goldMock symbol with
  | some _ => (fetchGold (rand k) symbol, k + 1)
  | none => (none, k)

/-- Whether the instrument is in the adapter's known set. -/
def goldKnown (symbol : String) : Bool := (goldMock symbol).isSome

/-! ### Aggregator `fetchAllPrices` (lines 152-180) -/

/-- The ambient effects of one aggregation pass: the two HTTP transports and
the `Math.random()` stream. -/
structure Env where
  chinaT : ChinaTransport
  cryptoT : CryptoTransport
  rand : Nat → ℚ

/-- Outcome recorded for a stocks/hkstocks entry. -/
def chinaOut (env : Env) (e : SymbolEntry) : Option Quote :=
  (fetchChinaStock env.chinaT e.symbol).1

/-- Outcome recorded for a crypto entry. -/
def cryptoOut (env : Env) (e : SymbolEntry) : Option Quote :=
  (fetchCrypto env.cryptoT e.symbol).1

/-- One `for (const x of group.symbols)` loop body of `fetchAllPrices`:
`results[x.name] = outcome`. -/
def outFold (v : SymbolEntry → Option Quote) (acc : Report) :
    List SymbolEntry → Report
  | [] => acc
  | e :: es => outFold v (objInsert acc e.name (v e)) es

/-- The gold loop, which additionally advances the random cursor. -/
def goldFold (rand : Nat → ℚ) (acc : Report) (k : Nat) :
    List SymbolEntry → Report × Nat
  | [] => (acc, k)
  | e :: es =>
    goldFold rand (objInsert acc e.name (fetchGoldS rand k e.symbol).1)
      (fetchGoldS rand k e.symbol).2 es

/-- The aggregator `fetchAllPrices` (lines 152-180): the four hard-coded group loops in
source order; reading `.symbols` of a missing group is a JS `TypeError`,
modeled as `Except.error`. -/
def fetchAllPrices (env : Env) (w : Watchlist) : Except Unit Report :=
  match jsLookup w "stocks" with
  | none => Except.error ()
  | some sg =>
    let r1 := outFold (chinaOut env) [] sg.symbols
    match jsLookup w "hkstocks" with
    | none => Except.error ()
    | some hg =>
      let r2 := outFold (chinaOut env) r1 hg.symbols
      match jsLookup w "gold" with
      | none => Except.error ()
      | some gg =>
        let p := goldFold env.rand r2 0 gg.symbols
        match jsLookup w "crypto" with
        | none => Except.error ()
        | some cg => Except.ok (outFold (cryptoOut env) p.1 cg.symbols)

/-- The per-entry report a group would contribute in isolation. -/
def mapOut (v : SymbolEntry → Option Quote) (es : List SymbolEntry) : Report :=
  es.map fun e => (e.name, v e)

/-- The gold group's contribution with the random cursor threaded through. -/
def goldRun (rand : Nat → ℚ) (k : Nat) : List SymbolEntry → Report × Nat
  | [] => ([], k)
  | e :: es =>
    let q := fetchGoldS rand k e.symbol
    let rest := goldRun rand q.2 es
    ((e.name, q.1) :: rest.1, rest.2)

/-! ### Concrete fixtures (default configuration and test environments) -/

/-- The `stocks` group of `DEFAULT_WATCHLIST` (lines 33-42). -/
def stocksG : WatchGroup :=
  { name := "A股"
    symbols := [⟨"sh000001", "上证指数"⟩, ⟨"sz399001", "深证成指"⟩,
      ⟨"sz399006", "创业板指"⟩, ⟨"sh600519", "贵州茅台"⟩, ⟨"sz000001", "平安银行"⟩] }

/-- The `hkstocks` group of `DEFAULT_WATCHLIST` (lines 43-49). -/
def hkstocksG : WatchGroup :=
  { name := "港股", symbols := [⟨"hkHSI", "恒生指数"⟩, ⟨"hk00700", "腾讯控股"⟩] }

/-- The `gold` group of `DEFAULT_WATCHLIST` (lines 50-56). -/
def goldG : WatchGroup :=
  { name := "黄金", symbols := [⟨"XAUUSD", "黄金/美元"⟩, ⟨"AU9999", "Au9999"⟩] }

/-- The `crypto` group of `DEFAULT_WATCHLIST` (lines 57-64). -/
def cryptoG : WatchGroup :=
  { name := "加密货币"
    symbols := [⟨"bitcoin", "BTC"⟩, ⟨"ethereum", "ETH"⟩, ⟨"solana", "SOL"⟩] }

/-- The constant `DEFAULT_WATCHLIST` (lines 32-65). -/
def DEFAULT_WATCHLIST : Watchlist :=
  [("stocks", stocksG), ("hkstocks", hkstocksG), ("gold", goldG), ("crypto", cryptoG)]

/-- A transport on which every request fails at the network layer. -/
def chinaTDown : ChinaTransport := fun _ => Except.error ()

/-- A crypto transport on which every request fails at the network layer. -/
def cryptoTDown : CryptoTransport := fun _ => Except.error ()

/-- An environment with both upstreams down and `Math.random()` pinned to 0. -/
def env0 : Env := { chinaT := chinaTDown, cryptoT := cryptoTDown, rand := fun _ => 0 }

/-- The spec's worked regional-exchange example response. -/
def mtBody : String := "sh600519=\"贵州茅台,1830.00,1835.00,1820.00\""

/-- Transport answering every request with the worked example response. -/
def chinaTEx : ChinaTransport := fun _ => Except.ok mtBody

/-- A response of valid length and free of `'null'` whose quoted field list
has a single, non-numeric field: `parseFloat` yields NaN on both reads. -/
def oneFieldBody : String := "sh600519=\"abc\"xxxxxxxxxxxxxxxxxx"

/-- Transport answering with `oneFieldBody`. -/
def chinaTOneField : ChinaTransport := fun _ => Except.ok oneFieldBody

/-- A body that is too short to pass the length guard. -/
def shortBody : String := "bad"

/-- Transport answering with `shortBody`. -/
def chinaTShort : ChinaTransport := fun _ => Except.ok shortBody

/-- Crypto transport answering with an empty JSON object. -/
def cryptoTEmpty : CryptoTransport := fun _ => Except.ok []

/-- A simple-price response whose `bitcoin` value carries only the price
field; the 24h-change field is absent. -/
def cryptoRespPartial : List (String × CoinData) := [("bitcoin", ⟨some 100, none⟩)]

/-- Crypto transport answering with `cryptoRespPartial`. -/
def cryptoTPartial : CryptoTransport := fun _ => Except.ok cryptoRespPartial

/-- An empty `hkstocks` group. -/
def hkE : WatchGroup := ⟨"港股", []⟩

/-- An empty `gold` group. -/
def goldE : WatchGroup := ⟨"黄金", []⟩

/-- An empty `crypto` group. -/
def cryptoE : WatchGroup := ⟨"加密货币", []⟩

/-- A stocks group whose two entries share the display name `"X"`. -/
def stocksDup : WatchGroup := ⟨"A股", [⟨"a", "X"⟩, ⟨"b", "X"⟩]⟩

/-- A stocks group with the single entry `MT`. -/
def stocksMT : WatchGroup := ⟨"A股", [⟨"sh600519", "MT"⟩]⟩

/-- A watchlist whose two stock entries share the display name `"X"`:
the `results` object collapses them into one property. -/
def wDup : Watchlist :=
  [("stocks", stocksDup), ("hkstocks", hkE), ("gold", goldE), ("crypto", cryptoE)]

/-- A parser-shaped response for symbol `b` (39 characters, no `'null'`),
parsing to price 1 and change 2. -/
def bBody : String := "bxxxxxxxxxxxxxxxxxxxxxxxxxxxxx=\"N,1,2\""

/-- Transport failing for symbol `a` but answering `bBody` otherwise. -/
def chinaTDup : ChinaTransport :=
  fun url => if url = chinaUrl "a" then Except.error () else Except.ok bBody

/-- Environment for the duplicate-name counterexample: entry `a` fails,
entry `b` succeeds. -/
def envDup : Env := { chinaT := chinaTDup, cryptoT := cryptoTDown, rand := fun _ => 0 }

/-- A watchlist with an unbound group key `"bonds"` listed first, in addition
to the four bound groups. -/
def wBonds : Watchlist :=
  [("bonds", ⟨"债券", [⟨"b1", "B"⟩]⟩), ("stocks", stocksMT),
   ("hkstocks", hkE), ("gold", goldE), ("crypto", cryptoE)]

/-- A constant random stream used for the determinism witness. -/
def wRandA : Nat → ℚ := fun _ => 1 / 3

/-- A different random stream agreeing with `wRandA` only at cursor 5. -/
def wRandB : Nat → ℚ := fun n => if n = 5 then 1 / 3 else 0

/-- A long response body with no quote character at all. -/
def noQuoteBody : String := "xxxxxxxxxxxxxxxxxxxxxxxxxxxxxxxxxxxxxxxx"

/-- Transport answering with `noQuoteBody`. -/
def chinaTNoQuote : ChinaTransport := fun _ => Except.ok noQuoteBody

/-- A parse step that would succeed with a fixed quote; used to witness that
the guard's result does not depend on the parse step at all. -/
def constParse : String → Option Quote := fun _ => some ⟨some 0, some 0⟩

/-! ### Lemmas on the regex model -/

theorem upToQuote_spec (mid suf : List Char) (hmid : ∀ c ∈ mid, c ≠ '"') :
    upToQuote (mid ++ '"' :: suf) = some mid := by
  induction mid with
  | nil => simp [upToQuote]
  | cons c cs ih =>
    have hc : c ≠ '"' := hmid c (by simp)
    simp only [List.cons_append, upToQuote, if_neg hc, List.append_eq]
    rw [ih (fun x hx => hmid x (by simp [hx]))]
    rfl

theorem afterQuote_spec (mid suf : List Char) (hne : mid ≠ [])
    (hmid : ∀ c ∈ mid, c ≠ '"') :
    afterQuote (mid ++ '"' :: suf) = some mid := by
  cases mid with
  | nil => exact absurd rfl hne
  | cons c cs =>
    have hc : c ≠ '"' := hmid c (by simp)
    simp only [List.cons_append, afterQuote, if_neg hc, List.append_eq]
    rw [upToQuote_spec cs suf (fun x hx => hmid x (by simp [hx]))]
    rfl

theorem firstQuoted_spec (pre mid suf : List Char)
    (hpre : ∀ c ∈ pre, c ≠ '"') (hne : mid ≠ []) (hmid : ∀ c ∈ mid, c ≠ '"') :
    firstQuoted (pre ++ '"' :: (mid ++ '"' :: suf)) = some mid := by
  induction pre with
  | nil =>
    simp only [List.nil_append, firstQuoted, if_pos rfl]
    exact afterQuote_spec mid suf hne hmid
  | cons c cs ih =>
    have hc : c ≠ '"' := hpre c (by simp)
    simp only [List.cons_append, firstQuoted, if_neg hc]
    exact ih (fun x hx => hpre x (by simp [hx]))

/-! ### Lemmas on the regional-exchange fetch -/

theorem fetchChinaStock_ok (t : ChinaTransport) (s body : String)
    (ht : t (chinaUrl s) = Except.ok body) :
    fetchChinaStock t s = (chinaRespOutcome body, [chinaUrl s]) := by
  unfold fetchChinaStock
  rw [ht]

theorem chinaParse_eq (body : String) :
    chinaParse body = (firstQuoted body.toList).map
      (fun mid => ⟨optParseFloat (splitComma mid)[1]?, optParseFloat (splitComma mid)[2]?⟩) := by
  unfold chinaParse
  cases firstQuoted body.toList <;> rfl

theorem chinaGuard_false (body : String)
    (hnull : hasSubstr nullPat body.toList = false) (hlen : 32 ≤ body.length) :
    chinaGuard body = false := by
  unfold chinaGuard
  rw [hnull, Bool.false_or, decide_eq_false_iff_not]
  exact Nat.not_lt.mpr hlen

theorem chinaPipe_guard_false (parse : String → Option Quote) (body : String)
    (h : chinaGuard body = false) : chinaPipe parse body = parse body := by
  simp [chinaPipe, h]

/-! ### Claim theorems: regional-exchange adapter -/

/-- C3: for every well-formed regional-exchange response whose first quoted
string is a comma-separated field list with numeric fields at indices 1 and 2
(and which passes the null/length guard), `fetchChinaStock` returns `Success`
with the price from field index 1 and the change from field index 2, all
trailing fields ignored; the contract is purely positional. -/
theorem claim_c3 (t : ChinaTransport) (s body : String)
    (pre mid suf nm p c : List Char) (rest : List (List Char)) (pv cv : ℚ)
    (ht : t (chinaUrl s) = Except.ok body)
    (hb : body.toList = pre ++ '"' :: (mid ++ '"' :: suf))
    (hpre : ∀ ch ∈ pre, ch ≠ '"')
    (hne : mid ≠ [])
    (hmid : ∀ ch ∈ mid, ch ≠ '"')
    (hsplit : splitComma mid = nm :: p :: c :: rest)
    (hp : jsParseFloatL p = some pv)
    (hcv : jsParseFloatL c = some cv)
    (hnull : hasSubstr nullPat body.toList = false)
    (hlen : 32 ≤ body.length) :
    fetchChinaStock t s = (some ⟨some pv, some cv⟩, [chinaUrl s]) := by
  have hfq : firstQuoted body.toList = some mid := by
    rw [hb]
    exact firstQuoted_spec pre mid suf hpre hne hmid
  rw [fetchChinaStock_ok t s body ht]
  unfold chinaRespOutcome
  rw [chinaPipe_guard_false _ _ (chinaGuard_false body hnull hlen), chinaParse_eq,
    hfq, Option.map_some', hsplit]
  simp [optParseFloat, hp, hcv]

/-- C3 witness: the spec's worked example
`sh600519="贵州茅台,1830.00,1835.00,1820.00"` yields
`Success {price := 1830, change := 1835}`. -/
theorem claim_c3_witness :
    fetchChinaStock chinaTEx "sh600519" =
      (some ⟨some 1830, some 1835⟩, [chinaUrl "sh600519"]) :=
  claim_c3 chinaTEx "sh600519" mtBody
    "sh600519=".toList "贵州茅台,1830.00,1835.00,1820.00".toList []
    "贵州茅台".toList "1830.00".toList "1835.00".toList ["1820.00".toList]
    1830 1835 rfl (by decide) (by decide) (by decide) (by decide) (by decide)
    (by decide) (by decide) (by decide) (by decide)

/-- C4 (amended): a response in which the quote pattern does not match yields
`Unavailable`; nothing can throw out of the fetch (the embedding is total),
but — contrary to the original claim — too few comma fields or non-numeric
fields do NOT yield `Unavailable` (see the counterexample). -/
theorem claim_c4 (t : ChinaTransport) (s body : String)
    (ht : t (chinaUrl s) = Except.ok body)
    (hnoq : firstQuoted body.toList = none) :
    (fetchChinaStock t s).1 = none := by
  rw [fetchChinaStock_ok t s body ht]
  show chinaRespOutcome body = none
  unfold chinaRespOutcome chinaPipe
  rw [chinaParse_eq, hnoq]
  cases chinaGuard body <;> rfl

/-- C4 witness: a guard-passing body with no quote character at all maps to
`Unavailable`. -/
theorem claim_c4_witness : (fetchChinaStock chinaTNoQuote "sh000001").1 = none :=
  claim_c4 chinaTNoQuote "sh000001" noQuoteBody rfl (by decide)

/-- C4 counterexample: a 32-character body whose quoted field list has a
single non-numeric field ("too few comma-separated fields" and "non-numeric
fields" at once) produces a `Success` quote with NaN price and change, not
`Unavailable` — refuting the claim that every parse failure yields
`Unavailable`. -/
theorem claim_c4_counterexample :
    (fetchChinaStock chinaTOneField "sh600519").1 = some ⟨none, none⟩ ∧
      (fetchChinaStock chinaTOneField "sh600519").1 ≠ none := by
  constructor <;> decide

/-- C5: a response containing the substring `'null'` anywhere, or shorter
than 32 characters, yields `Unavailable`, and the outcome is independent of
the parse step — the parser is never invoked (stated by quantifying over an
arbitrary parse step `parse`). -/
theorem claim_c5 (t : ChinaTransport) (s body : String)
    (parse : String → Option Quote)
    (ht : t (chinaUrl s) = Except.ok body)
    (hg : hasSubstr nullPat body.toList = true ∨ body.length < 32) :
    chinaPipe parse body = none ∧ fetchChinaStock t s = (none, [chinaUrl s]) := by
  have hguard : chinaGuard body = true := by
    unfold chinaGuard
    rcases hg with h | h
    · rw [h, Bool.true_or]
    · rw [decide_eq_true h, Bool.or_true]
  have hpipe : ∀ q : String → Option Quote, chinaPipe q body = none := by
    intro q
    simp [chinaPipe, hguard]
  refine ⟨hpipe parse, ?_⟩
  rw [fetchChinaStock_ok t s body ht]
  unfold chinaRespOutcome
  rw [hpipe chinaParse]

/-- C5 witness: the short body `"bad"` is rejected by the guard, and even a
parse step that would always succeed is never consulted. -/
theorem claim_c5_witness :
    chinaPipe constParse shortBody = none ∧
      fetchChinaStock chinaTShort "sh000001" = (none, [chinaUrl "sh000001"]) :=
  claim_c5 chinaTShort "sh000001" shortBody constParse rfl (Or.inr (by decide))

/-! ### Claim theorems: cryptocurrency adapter -/

theorem fetchCrypto_ok (t : CryptoTransport) (s : String)
    (resp : List (String × CoinData)) (ht : t (cryptoUrl s) = Except.ok resp) :
    fetchCrypto t s =
      ((jsLookup resp (cryptoKey s)).map (fun d => ⟨d.cny, d.cny_24h_change⟩),
        [cryptoUrl s]) := by
  simp only [fetchCrypto, ht]
  cases hl : jsLookup resp (cryptoKey s) <;> simp [hl]

/-- C2 (amended): for a symbol outside the allow-list, `fetchCrypto` returns
`Unavailable` provided the response carries no entry under the literal key
`"undefined"` (the stringification of the failed `idMap` lookup) — but it
does issue exactly one network call, to the URL with `ids=undefined`,
contrary to the original "without issuing any network call". -/
theorem claim_c2 (t : CryptoTransport) (s : String)
    (hunk : cryptoIdMap s = none)
    (hresp : ∀ resp, t (cryptoUrl s) = Except.ok resp →
      jsLookup resp "undefined" = none) :
    fetchCrypto t s = (none, [cryptoUrl s]) := by
  have hkey : cryptoKey s = "undefined" := by rw [cryptoKey, hunk]; rfl
  cases hteq : t (cryptoUrl s) with
  | error e =>
    unfold fetchCrypto
    rw [hteq]
  | ok resp =>
    rw [fetchCrypto_ok t s resp hteq, hkey, hresp resp hteq]
    rfl

/-- C2 witness: the unknown symbol `dogecoin` against an empty response map
yields `Unavailable` with exactly one request issued. -/
theorem claim_c2_witness :
    fetchCrypto cryptoTEmpty "dogecoin" = (none, [cryptoUrl "dogecoin"]) :=
  claim_c2 cryptoTEmpty "dogecoin" rfl
    (fun resp h => by rw [← Except.ok.inj h]; rfl)

/-- C2 counterexample: for the unknown symbol `dogecoin` the adapter's
request list is nonempty — a network call IS issued, refuting "returns
Unavailable without issuing any network call". -/
theorem claim_c2_counterexample :
    (fetchCrypto cryptoTEmpty "dogecoin").2 = [cryptoUrl "dogecoin"] ∧
      (fetchCrypto cryptoTEmpty "dogecoin").2 ≠ ([] : List String) := by
  constructor
  · rfl
  · decide

/-! ### Claim theorems: quote completeness (C6) -/

/-- C6 (amended): only the metals adapter guarantees complete quotes; the
stock and crypto adapters copy the two fields independently from the
payload, so an upstream response yielding just one of the two fields
produces a `Success` quote with the other field NaN/undefined (`none`) —
partial quotes ARE representable, contrary to the original claim. -/
theorem claim_c6 :
    (∀ (r : ℚ) (s : String),
      ((fetchGold r s).all fun q => q.price.isSome && q.change.isSome) = true) ∧
    (∀ (resp : List (String × CoinData)) (s : String),
      (fetchCrypto (fun _ => Except.ok resp) s).1 =
        (jsLookup resp (cryptoKey s)).map fun d => ⟨d.cny, d.cny_24h_change⟩) ∧
    (∀ body : String, chinaParse body = (firstQuoted body.toList).map
      fun mid => ⟨optParseFloat (splitComma mid)[1]?, optParseFloat (splitComma mid)[2]?⟩) := by
  refine ⟨?_, ?_, chinaParse_eq⟩
  · intro r s
    unfold fetchGold
    cases goldMock s <;> rfl
  · intro resp s
    rw [fetchCrypto_ok (fun _ => Except.ok resp) s resp rfl]

/-- C6 counterexample: a simple-price response whose `bitcoin` value has a
price but no 24h-change field produces a `Success` quote whose change field
is absent — a partial quote, which the claim says is not representable. -/
theorem claim_c6_counterexample :
    (fetchCrypto cryptoTPartial "bitcoin").1 = some ⟨some 100, none⟩ ∧
      (fetchCrypto cryptoTPartial "bitcoin").1 ≠ none ∧
      (⟨some 100, none⟩ : Quote).change = none := by
  refine ⟨rfl, ?_, rfl⟩
  intro h
  exact Option.noConfusion h

/-! ### Claim theorems: precious-metals adapter -/

/-- C9: the metals adapter is a deterministic function of the symbol and the
random draw — two runs whose generators produce the same draw at their
cursors return the same outcome — and it never fails for network reasons:
the outcome is `Unavailable` exactly for instruments outside the known set. -/
theorem claim_c9 (rand rand' : Nat → ℚ) (k k' : Nat) (s : String)
    (h : rand k = rand' k') :
    (fetchGoldS rand k s).1 = (fetchGoldS rand' k' s).1 ∧
      ((fetchGoldS rand k s).1 = none ↔ goldMock s = none) := by
  cases hm : goldMock s with
  | none => simp [fetchGoldS, hm]
  | some d => simp [fetchGoldS, fetchGold, hm, h]

/-- C9 witness: two differently-seeded streams that agree on the consumed
draw give the identical quote for `XAUUSD`, which is never `Unavailable`. -/
theorem claim_c9_witness :
    (fetchGoldS wRandA 0 "XAUUSD").1 = (fetchGoldS wRandB 5 "XAUUSD").1 ∧
      ((fetchGoldS wRandA 0 "XAUUSD").1 = none ↔ goldMock "XAUUSD" = none) :=
  claim_c9 wRandA wRandB 0 5 "XAUUSD" rfl

/-- C10 (amended): for a known instrument and a draw `r ∈ [0,1)`, the quote
is `price = base + v`, `change = chg + v·(1/10)` with `v = (r - 1/2)·2 ∈
[-1,1)`; the price offset has absolute value AT MOST 1 (equality is attained
at `r = 0`, refuting the original "strictly less than 1"), the change offset
is exactly one tenth of the price offset, and the two offsets always share
their sign. -/
theorem claim_c10 (r : ℚ) (s : String) (base chg : ℚ)
    (h0 : 0 ≤ r) (h1 : r < 1) (hm : goldMock s = some (base, chg)) :
    fetchGold r s =
      some ⟨some (base + (r - 1 / 2) * 2), some (chg + (r - 1 / 2) * 2 * (1 / 10))⟩ ∧
      -1 ≤ (r - 1 / 2) * 2 ∧ (r - 1 / 2) * 2 < 1 ∧
      |(base + (r - 1 / 2) * 2) - base| ≤ 1 ∧
      (chg + (r - 1 / 2) * 2 * (1 / 10)) - chg = ((base + (r - 1 / 2) * 2) - base) * (1 / 10) ∧
      (0 ≤ (base + (r - 1 / 2) * 2) - base ↔ 0 ≤ (chg + (r - 1 / 2) * 2 * (1 / 10)) - chg) := by
  refine ⟨?_, by linarith, by linarith, ?_, by ring, ?_⟩
  · unfold fetchGold
    rw [hm]
  · rw [add_sub_cancel_left, abs_le]
    exact ⟨by linarith, by linarith⟩
  · rw [add_sub_cancel_left, add_sub_cancel_left]
    constructor <;> intro hv <;> linarith

/-- C10 witness: the midpoint draw `r = 1/2` perturbs `XAUUSD` by zero. -/
theorem claim_c10_witness :
    fetchGold (1 / 2) "XAUUSD" =
      some ⟨some (2650 + ((1 : ℚ) / 2 - 1 / 2) * 2),
        some (1 / 2 + ((1 : ℚ) / 2 - 1 / 2) * 2 * (1 / 10))⟩ ∧
      -1 ≤ ((1 : ℚ) / 2 - 1 / 2) * 2 ∧ ((1 : ℚ) / 2 - 1 / 2) * 2 < 1 ∧
      |(2650 + ((1 : ℚ) / 2 - 1 / 2) * 2) - 2650| ≤ 1 ∧
      (1 / 2 + ((1 : ℚ) / 2 - 1 / 2) * 2 * (1 / 10)) - 1 / 2 =
        ((2650 + ((1 : ℚ) / 2 - 1 / 2) * 2) - 2650) * (1 / 10) ∧
      (0 ≤ (2650 + ((1 : ℚ) / 2 - 1 / 2) * 2) - 2650 ↔
        0 ≤ (1 / 2 + ((1 : ℚ) / 2 - 1 / 2) * 2 * (1 / 10)) - 1 / 2) :=
  claim_c10 (1 / 2) "XAUUSD" 2650 (1 / 2) (by norm_num) (by norm_num) rfl

/-- C10 counterexample: at the draw `r = 0` (a value `Math.random()` can
produce) the price offset is exactly −1, so the returned price does NOT
differ from the baseline by strictly less than 1 in absolute value. -/
theorem claim_c10_counterexample :
    fetchGold 0 "XAUUSD" =
      some ⟨some (2650 + ((0 : ℚ) - 1 / 2) * 2),
        some (1 / 2 + ((0 : ℚ) - 1 / 2) * 2 * (1 / 10))⟩ ∧
      ¬(|(2650 + ((0 : ℚ) - 1 / 2) * 2) - 2650| < 1) := by
  constructor
  · rfl
  · norm_num

/-! ### Lemmas on the aggregator's results object -/

theorem objHasKey_false {α : Type} (o : List (String × α)) (k : String)
    (h : k ∉ o.map Prod.fst) : objHasKey o k = false := by
  induction o with
  | nil => rfl
  | cons p rest ih =>
    obtain ⟨k', v⟩ := p
    simp only [List.map_cons, List.mem_cons, not_or] at h
    simp only [objHasKey, ih h.2, Bool.or_false, decide_eq_false_iff_not]
    exact fun he => h.1 he.symm

theorem objHasKey_append {α : Type} (a b : List (String × α)) (k : String) :
    objHasKey (a ++ b) k = (objHasKey a k || objHasKey b k) := by
  induction a with
  | nil => simp [objHasKey]
  | cons p rest ih =>
    obtain ⟨k', v⟩ := p
    simp [objHasKey, ih, Bool.or_assoc]

theorem objInsert_fresh {α : Type} (o : List (String × α)) (k : String) (v : α)
    (h : objHasKey o k = false) : objInsert o k v = o ++ [(k, v)] := by
  simp [objInsert, h]

theorem mapOut_keys (v : SymbolEntry → Option Quote) (es : List SymbolEntry) :
    (mapOut v es).map Prod.fst = es.map SymbolEntry.name := by
  induction es with
  | nil => rfl
  | cons e es ih => simp_all [mapOut]

theorem goldRun_keys (rand : Nat → ℚ) (k : Nat) (es : List SymbolEntry) :
    ((goldRun rand k es).1).map Prod.fst = es.map SymbolEntry.name := by
  induction es generalizing k with
  | nil => rfl
  | cons e es ih =>
    simp [goldRun, ih]

theorem goldRun_length (rand : Nat → ℚ) (k : Nat) (es : List SymbolEntry) :
    ((goldRun rand k es).1).length = es.length := by
  induction es generalizing k with
  | nil => rfl
  | cons e es ih =>
    simp [goldRun, ih]

theorem outFold_eq (v : SymbolEntry → Option Quote) (es : List SymbolEntry)
    (acc : Report)
    (h1 : ∀ e ∈ es, objHasKey acc e.name = false)
    (h2 : (es.map SymbolEntry.name).Nodup) :
    outFold v acc es = acc ++ mapOut v es := by
  induction es generalizing acc with
  | nil => simp [outFold, mapOut]
  | cons e es ih =>
    simp only [List.map_cons, List.nodup_cons] at h2
    have he := h1 e (List.mem_cons_self e es)
    have h1' : ∀ e' ∈ es, objHasKey (acc ++ [(e.name, v e)]) e'.name = false := by
      intro e' he'
      rw [objHasKey_append]
      have hA := h1 e' (List.mem_cons_of_mem e he')
      have hne : ¬(e.name = e'.name) :=
        fun hEq => h2.1 (hEq ▸ List.mem_map_of_mem SymbolEntry.name he')
      simp [objHasKey, hA, hne]
    simp only [outFold]
    rw [objInsert_fresh acc e.name (v e) he, ih (acc ++ [(e.name, v e)]) h1' h2.2]
    simp [mapOut, List.append_assoc]

theorem goldFold_eq (rand : Nat → ℚ) (es : List SymbolEntry) (acc : Report)
    (k : Nat)
    (h1 : ∀ e ∈ es, objHasKey acc e.name = false)
    (h2 : (es.map SymbolEntry.name).Nodup) :
    goldFold rand acc k es = (acc ++ (goldRun rand k es).1, (goldRun rand k es).2) := by
  induction es generalizing acc k with
  | nil => simp [goldFold, goldRun]
  | cons e es ih =>
    simp only [List.map_cons, List.nodup_cons] at h2
    have he := h1 e (List.mem_cons_self e es)
    have h1' : ∀ e' ∈ es,
        objHasKey (acc ++ [(e.name, (fetchGoldS rand k e.symbol).1)]) e'.name = false := by
      intro e' he'
      rw [objHasKey_append]
      have hA := h1 e' (List.mem_cons_of_mem e he')
      have hne : ¬(e.name = e'.name) :=
        fun hEq => h2.1 (hEq ▸ List.mem_map_of_mem SymbolEntry.name he')
      simp [objHasKey, hA, hne]
    simp only [goldFold, goldRun]
    rw [objInsert_fresh acc e.name (fetchGoldS rand k e.symbol).1 he,
      ih (acc ++ [(e.name, (fetchGoldS rand k e.symbol).1)]) (fetchGoldS rand k e.symbol).2 h1' h2.2]
    simp [List.append_assoc]

/-- The aggregator characterization: when the four bound groups resolve and
all display names are pairwise distinct, the report is exactly the four
groups' entry lists in configured order, each entry paired with its own
adapter outcome (the gold draws threaded from cursor 0). -/
theorem fetchAllPrices_eq (env : Env) (w : Watchlist) (sg hg gg cg : WatchGroup)
    (hs : jsLookup w "stocks" = some sg)
    (hh : jsLookup w "hkstocks" = some hg)
    (hgo : jsLookup w "gold" = some gg)
    (hcr : jsLookup w "crypto" = some cg)
    (hnd : (sg.symbols.map SymbolEntry.name ++ hg.symbols.map SymbolEntry.name ++
        gg.symbols.map SymbolEntry.name ++ cg.symbols.map SymbolEntry.name).Nodup) :
    fetchAllPrices env w = Except.ok
      (mapOut (chinaOut env) sg.symbols ++ mapOut (chinaOut env) hg.symbols ++
        (goldRun env.rand 0 gg.symbols).1 ++ mapOut (cryptoOut env) cg.symbols) := by
  simp only [List.nodup_append, List.disjoint_append_left] at hnd
  obtain ⟨⟨⟨hA, hB, dAB⟩, hC, dAC, dBC⟩, hD, ⟨dAD, dBD⟩, dCD⟩ := hnd
  have cond1 : ∀ e ∈ sg.symbols, objHasKey ([] : Report) e.name = false :=
    fun _ _ => rfl
  have cond2 : ∀ e ∈ hg.symbols,
      objHasKey (mapOut (chinaOut env) sg.symbols) e.name = false := by
    intro e he
    apply objHasKey_false
    rw [mapOut_keys]
    exact fun hm => dAB hm (List.mem_map_of_mem _ he)
  have cond3 : ∀ e ∈ gg.symbols,
      objHasKey (mapOut (chinaOut env) sg.symbols ++ mapOut (chinaOut env) hg.symbols)
        e.name = false := by
    intro e he
    rw [objHasKey_append]
    have k1 : objHasKey (mapOut (chinaOut env) sg.symbols) e.name = false := by
      apply objHasKey_false
      rw [mapOut_keys]
      exact fun hm => dAC hm (List.mem_map_of_mem _ he)
    have k2 : objHasKey (mapOut (chinaOut env) hg.symbols) e.name = false := by
      apply objHasKey_false
      rw [mapOut_keys]
      exact fun hm => dBC hm (List.mem_map_of_mem _ he)
    rw [k1, k2]
    rfl
  have cond4 : ∀ e ∈ cg.symbols,
      objHasKey ((mapOut (chinaOut env) sg.symbols ++ mapOut (chinaOut env) hg.symbols) ++
        (goldRun env.rand 0 gg.symbols).1) e.name = false := by
    intro e he
    rw [objHasKey_append, objHasKey_append]
    have k1 : objHasKey (mapOut (chinaOut env) sg.symbols) e.name = false := by
      apply objHasKey_false
      rw [mapOut_keys]
      exact fun hm => dAD hm (List.mem_map_of_mem _ he)
    have k2 : objHasKey (mapOut (chinaOut env) hg.symbols) e.name = false := by
      apply objHasKey_false
      rw [mapOut_keys]
      exact fun hm => dBD hm (List.mem_map_of_mem _ he)
    have k3 : objHasKey (goldRun env.rand 0 gg.symbols).1 e.name = false := by
      apply objHasKey_false
      rw [goldRun_keys]
      exact fun hm => dCD hm (List.mem_map_of_mem _ he)
    rw [k1, k2, k3]
    rfl
  simp only [fetchAllPrices, hs, hh, hgo, hcr]
  rw [outFold_eq (chinaOut env) sg.symbols [] cond1 hA, List.nil_append,
    outFold_eq (chinaOut env) hg.symbols _ cond2 hB,
    goldFold_eq env.rand gg.symbols _ 0 cond3 hC]
  dsimp only
  rw [outFold_eq (cryptoOut env) cg.symbols _ cond4 hD]

/-! ### Claim theorems: aggregator -/

/-- C1 (amended): when the four bound groups resolve and all display names
are pairwise distinct, the aggregator never aborts and the report's entry
count equals the sum of the four groups' entry counts, for every environment
— i.e. regardless of how many per-symbol fetches fail.  (Without the
distinctness proviso the claim is false: the results object is keyed by
display name, so duplicate names collapse — see the counterexample.) -/
theorem claim_c1 (env : Env) (w : Watchlist) (sg hg gg cg : WatchGroup)
    (hs : jsLookup w "stocks" = some sg)
    (hh : jsLookup w "hkstocks" = some hg)
    (hgo : jsLookup w "gold" = some gg)
    (hcr : jsLookup w "crypto" = some cg)
    (hnd : (sg.symbols.map SymbolEntry.name ++ hg.symbols.map SymbolEntry.name ++
        gg.symbols.map SymbolEntry.name ++ cg.symbols.map SymbolEntry.name).Nodup) :
    (∀ rep : Report, fetchAllPrices env w = Except.ok rep →
      rep.length = sg.symbols.length + hg.symbols.length +
        gg.symbols.length + cg.symbols.length) ∧
      fetchAllPrices env w ≠ Except.error () := by
  have hchar := fetchAllPrices_eq env w sg hg gg cg hs hh hgo hcr hnd
  constructor
  · intro rep hrep
    rw [hchar] at hrep
    rw [← Except.ok.inj hrep]
    simp [mapOut, goldRun_length]
    omega
  · rw [hchar]
    exact fun h => Except.noConfusion h

/-- C1 witness: on the built-in default watchlist, with both network
transports failing every request, the report still has 5+2+2+3 entries. -/
theorem claim_c1_witness :
    (mapOut (chinaOut env0) stocksG.symbols ++ mapOut (chinaOut env0) hkstocksG.symbols ++
      (goldRun env0.rand 0 goldG.symbols).1 ++ mapOut (cryptoOut env0) cryptoG.symbols).length =
      stocksG.symbols.length + hkstocksG.symbols.length +
        goldG.symbols.length + cryptoG.symbols.length :=
  (claim_c1 env0 DEFAULT_WATCHLIST stocksG hkstocksG goldG cryptoG
      rfl rfl rfl rfl (by decide)).1 _
    (fetchAllPrices_eq env0 DEFAULT_WATCHLIST stocksG hkstocksG goldG cryptoG
      rfl rfl rfl rfl (by decide))

/-- C1 counterexample: a watchlist whose two stock entries share the display
name `"X"` produces a one-entry report although the groups hold two entries
— the report length is the number of DISTINCT names, not the sum of entry
counts. -/
theorem claim_c1_counterexample :
    fetchAllPrices envDup wDup = Except.ok [("X", chinaOut envDup ⟨"b", "X"⟩)] ∧
      ([("X", chinaOut envDup ⟨"b", "X"⟩)] : Report).length ≠
        stocksDup.symbols.length + hkE.symbols.length +
          goldE.symbols.length + cryptoE.symbols.length := by
  constructor
  · rfl
  · decide

/-- C7 (amended): when the four bound groups resolve and all display names
are pairwise distinct, the report lists the groups in the fixed bound order
(stocks, hkstocks, gold, crypto — the default configuration's order) and the
entries of each group in configured order, each display name paired with the
outcome of its own entry's adapter call.  (With duplicate display names the
later entry silently overwrites the earlier entry's slot — see the
counterexample.) -/
theorem claim_c7 (env : Env) (w : Watchlist) (sg hg gg cg : WatchGroup)
    (hs : jsLookup w "stocks" = some sg)
    (hh : jsLookup w "hkstocks" = some hg)
    (hgo : jsLookup w "gold" = some gg)
    (hcr : jsLookup w "crypto" = some cg)
    (hnd : (sg.symbols.map SymbolEntry.name ++ hg.symbols.map SymbolEntry.name ++
        gg.symbols.map SymbolEntry.name ++ cg.symbols.map SymbolEntry.name).Nodup) :
    fetchAllPrices env w = Except.ok
      (mapOut (chinaOut env) sg.symbols ++ mapOut (chinaOut env) hg.symbols ++
        (goldRun env.rand 0 gg.symbols).1 ++ mapOut (cryptoOut env) cg.symbols) :=
  fetchAllPrices_eq env w sg hg gg cg hs hh hgo hcr hnd

/-- C7 witness: the default watchlist's report is exactly its entry lists in
configured order, entry by entry. -/
theorem claim_c7_witness :
    fetchAllPrices env0 DEFAULT_WATCHLIST = Except.ok
      (mapOut (chinaOut env0) stocksG.symbols ++ mapOut (chinaOut env0) hkstocksG.symbols ++
        (goldRun env0.rand 0 goldG.symbols).1 ++ mapOut (cryptoOut env0) cryptoG.symbols) :=
  claim_c7 env0 DEFAULT_WATCHLIST stocksG hkstocksG goldG cryptoG
    rfl rfl rfl rfl (by decide)

/-- C7 counterexample: with two stock entries both named `"X"` (first fails,
second succeeds), the single `"X"` slot sits at the first entry's position
but holds the SECOND entry's outcome, and the first entry's own outcome
(`Unavailable`) is recorded nowhere — output order/attribution does not
match the configured entries. -/
theorem claim_c7_counterexample :
    fetchAllPrices envDup wDup = Except.ok [("X", chinaOut envDup ⟨"b", "X"⟩)] ∧
      chinaOut envDup ⟨"a", "X"⟩ = none ∧
      chinaOut envDup ⟨"b", "X"⟩ ≠ none := by
  refine ⟨rfl, rfl, ?_⟩
  intro h
  exact Option.noConfusion h

/-- C8 (amended): an unbound group key is NOT a configuration error: the
aggregation run never aborts and simply ignores it — the report's keys are
exactly the four bound groups' display names, so entries of any other group
are neither fetched nor reported, and no error names the offending group. -/
theorem claim_c8 (env : Env) (w : Watchlist) (sg hg gg cg : WatchGroup)
    (hs : jsLookup w "stocks" = some sg)
    (hh : jsLookup w "hkstocks" = some hg)
    (hgo : jsLookup w "gold" = some gg)
    (hcr : jsLookup w "crypto" = some cg)
    (hnd : (sg.symbols.map SymbolEntry.name ++ hg.symbols.map SymbolEntry.name ++
        gg.symbols.map SymbolEntry.name ++ cg.symbols.map SymbolEntry.name).Nodup) :
    fetchAllPrices env w ≠ Except.error () ∧
      (∀ rep : Report, fetchAllPrices env w = Except.ok rep →
        rep.map Prod.fst = sg.symbols.map SymbolEntry.name ++
          hg.symbols.map SymbolEntry.name ++ gg.symbols.map SymbolEntry.name ++
          cg.symbols.map SymbolEntry.name) := by
  have hchar := fetchAllPrices_eq env w sg hg gg cg hs hh hgo hcr hnd
  constructor
  · rw [hchar]
    exact fun h => Except.noConfusion h
  · intro rep hrep
    rw [hchar] at hrep
    rw [← Except.ok.inj hrep]
    simp [mapOut_keys, goldRun_keys]

/-- C8 witness: on a watchlist that carries an extra `"bonds"` group, the
run completes and the report's keys are exactly the bound groups' names. -/
theorem claim_c8_witness :
    fetchAllPrices env0 wBonds ≠ Except.error () ∧
      (mapOut (chinaOut env0) stocksMT.symbols ++ mapOut (chinaOut env0) hkE.symbols ++
        (goldRun env0.rand 0 goldE.symbols).1 ++
          mapOut (cryptoOut env0) cryptoE.symbols).map Prod.fst =
        stocksMT.symbols.map SymbolEntry.name ++ hkE.symbols.map SymbolEntry.name ++
          goldE.symbols.map SymbolEntry.name ++ cryptoE.symbols.map SymbolEntry.name :=
  ⟨(claim_c8 env0 wBonds stocksMT hkE goldE cryptoE rfl rfl rfl rfl (by decide)).1,
    (claim_c8 env0 wBonds stocksMT hkE goldE cryptoE rfl rfl rfl rfl (by decide)).2 _
      (fetchAllPrices_eq env0 wBonds stocksMT hkE goldE cryptoE
        rfl rfl rfl rfl (by decide))⟩

/-- C8 counterexample: a watchlist containing the unbound group key
`"bonds"` (with one entry named `"B"`) is NOT rejected: the aggregation
completes normally and returns a report that fetched the bound `stocks`
entry and contains nothing for `"bonds"` — no configuration-level fatal
error is ever raised. -/
theorem claim_c8_counterexample :
    fetchAllPrices env0 wBonds ≠ Except.error () ∧
      fetchAllPrices env0 wBonds = Except.ok [("MT", none)] := by
  refine ⟨?_, rfl⟩
  intro h
  rw [show fetchAllPrices env0 wBonds = Except.ok [("MT", (none : Option Quote))]
    from rfl] at h
  exact Except.noConfusion h

end MarketCli
